import Mathlib

/-!
Verification development for the MongoDB TLS proxy service
(`src/api/index.js` of maxpantech/mongodb-proxy-service).

The file shallowly embeds, from the JavaScript source:
  * the Type Coercer (`parseQuery` with its nested `convertDates`,
    src/api/index.js lines 842-896),
  * the aggregate branch of `processQueryParameters` together with the
    dispatcher's array check (lines 185-193 and 452-463),
  * the `/query` error classification (lines 543-547),
  * the `/connect` route's session state machine (lines 233-350) with
    `createMongoConnectionPool` (lines 110-170),
  * the `/disconnect` route (lines 703-749),
  * the idle-cleanup sweep (lines 752-777).
External effects (socket connect, liveness pings, `client.close()`,
`fs.unlinkSync`) are parameterized by explicit outcome records, and the
shared mutable state (the `connectionPools` map, the temp cert files)
is threaded as an explicit state value.
-/

namespace MongoProxy

/-! ## Timestamps and the ISO-8601 detection of `convertDates`

`convertDates` (src/api/index.js lines 846-868) tests string leaves against
`/^\d{4}-\d{2}-\d{2}T\d{2}:\d{2}:\d{2}(\.\d{3})?Z?$/` and, on a match, builds
`new Date(s)` and keeps it only when `!isNaN(date.getTime())`.  A JS `Date`
instant produced from such a string is faithfully represented by its seven
parsed components. -/

structure Timestamp where
  year : Nat
  month : Nat
  day : Nat
  hour : Nat
  minute : Nat
  second : Nat
  millis : Nat
deriving DecidableEq, Repr

def digitVal (c : Char) : Nat := c.toNat - '0'.toNat

def twoDig (a b : Char) : Nat := 10 * digitVal a + digitVal b

/-- The ISO pattern of `convertDates`: exactly
`\d{4}-\d{2}-\d{2}T\d{2}:\d{2}:\d{2}` followed by an optional `.\d{3}` and
an optional `Z`, anchored at both ends.  Returns the parsed components when
the pattern matches, `none` otherwise. -/
def readIso (s : String) : Option Timestamp :=
  match s.toList.take 19 with
  | [y1, y2, y3, y4, h1, mo1, mo2, h2, d1, d2, t1, hh1, hh2, c1, mi1, mi2, c2, ss1, ss2] =>
    if y1.isDigit && y2.isDigit && y3.isDigit && y4.isDigit && h1 = '-' &&
       mo1.isDigit && mo2.isDigit && h2 = '-' && d1.isDigit && d2.isDigit &&
       t1 = 'T' && hh1.isDigit && hh2.isDigit && c1 = ':' &&
       mi1.isDigit && mi2.isDigit && c2 = ':' && ss1.isDigit && ss2.isDigit then
      let y := 1000 * digitVal y1 + 100 * digitVal y2 + 10 * digitVal y3 + digitVal y4
      let core : Nat → Timestamp := fun ms =>
        ⟨y, twoDig mo1 mo2, twoDig d1 d2, twoDig hh1 hh2, twoDig mi1 mi2, twoDig ss1 ss2, ms⟩
      match s.toList.drop 19 with
      | [] => some (core 0)
      | ['Z'] => some (core 0)
      | ['.', a, b, c] =>
        if a.isDigit && b.isDigit && c.isDigit then
          some (core (100 * digitVal a + 10 * digitVal b + digitVal c))
        else none
      | ['.', a, b, c, 'Z'] =>
        if a.isDigit && b.isDigit && c.isDigit then
          some (core (100 * digitVal a + 10 * digitVal b + digitVal c))
        else none
      | _ => none
    else none
  | _ => none

def jsLeap (y : Nat) : Bool := y % 4 = 0 && (y % 100 != 0 || y % 400 = 0)

def daysInMonth (y m : Nat) : Nat :=
  if m = 2 then (if jsLeap y then 29 else 28)
  else if m = 4 ∨ m = 6 ∨ m = 9 ∨ m = 11 then 30
  else 31

/-- Whether `new Date(s)` yields a valid instant for a pattern-matching
string: the ECMAScript date-time string format requires a calendar-valid
month/day, minutes and seconds below 60, and hours below 24 (hour 24 is
admitted only for exactly midnight). -/
def tsValid (t : Timestamp) : Bool :=
  1 ≤ t.month && t.month ≤ 12 && 1 ≤ t.day && t.day ≤ daysInMonth t.year t.month &&
  (t.hour < 24 || (t.hour = 24 && t.minute = 0 && t.second = 0 && t.millis = 0)) &&
  t.minute ≤ 59 && t.second ≤ 59

/-! ## The payload value tree

Dynamic JS values reaching the coercer, as produced by a JSON body parse
plus the two typed scalars the code introduces (`Date`, `ObjectId`). -/

inductive Value where
  | vStr : String → Value
  | vNum : Int → Value
  | vBool : Bool → Value
  | vNull : Value
  | vDate : Timestamp → Value
  | vOid : String → Value
  | vArr : List Value → Value
  | vDoc : List (String × Value) → Value

/-- The string-leaf branch of `convertDates`: a string matching the ISO
pattern becomes a `Date` when the instant is valid, otherwise the original
string is kept (the `isNaN` guard; the `try/catch` around `new Date` never
fires since the constructor does not throw). -/
def convertString (s : String) : Value :=
  match readIso s with
  | some t => if tsValid t then .vDate t else .vStr s
  | none => .vStr s

mutual

/-- One entry value under `convertDates` (src/api/index.js lines 846-868):
a plain object (truthy, `typeof 'object'`, not an array, not a `Date`, not
an `ObjectId`) is recursed into; a string leaf is tested against the ISO
pattern; every other value — including arrays, whose elements the loop
never visits — is left as is. -/
def convertEntryVal : Value → Value
  | .vDoc m => .vDoc (convertEntries m)
  | .vStr s => convertString s
  | v => v

/-- The loop of `convertDates` over the entries of one object. -/
def convertEntries : List (String × Value) → List (String × Value)
  | [] => []
  | (k, v) :: rest => (k, convertEntryVal v) :: convertEntries rest

end

def isHexChar (c : Char) : Bool :=
  ('0' ≤ c && c ≤ '9') || ('a' ≤ c && c ≤ 'f') || ('A' ≤ c && c ≤ 'F')

def isHex24 (s : String) : Bool :=
  s.length = 24 && s.toList.all isHexChar

/-- The ObjectId coercion of one field value (src/api/index.js lines
871-881): a truthy string of length exactly 24 is passed to
`new ObjectId(...)`, which succeeds exactly for 24 hex characters; on the
`BSONError` the catch keeps the original string.  Non-strings and strings
of any other length are untouched. -/
def tryOid (v : Value) : Value :=
  match v with
  | .vStr s => if s.length = 24 then (if isHex24 s then .vOid s else .vStr s) else .vStr s
  | v => v

/-- The field allowlist of the coercer's `forEach`
(src/api/index.js line 871). -/
def oidFields : List String := ["_id", "franchise", "franchiseId", "store", "storeId"]

/-- One iteration `parsed[field] = new ObjectId(parsed[field])` of the
allowlist loop, for one field name. -/
def updateField (f : String) (m : List (String × Value)) : List (String × Value) :=
  m.map fun p => if p.1 = f then (p.1, tryOid p.2) else p

/-- The `forEach` over the allowlisted field names. -/
def coerceFields : List String → List (String × Value) → List (String × Value)
  | [], m => m
  | f :: fs, m => coerceFields fs (updateField f m)

/-- The cumulative effect of the allowlist loop on the value stored under
one key, used to characterize `coerceFields` entrywise. -/
def coerceVal : List String → String → Value → Value
  | [], _, v => v
  | f :: fs, k, v => coerceVal fs k (if k = f then tryOid v else v)

/-- The full coercer `parseQuery` (src/api/index.js lines 842-896) as a
transformation of the returned object: shallow-copy the input, coerce the
allowlisted top-level fields to ObjectId, then run `convertDates` over the
result. -/
def parseQueryF (m : List (String × Value)) : List (String × Value) :=
  convertEntries (coerceFields oidFields m)

/-- The state of the ORIGINAL argument object after `parseQuery` returns.
`parseQuery` copies only the top level (`const parsed = { ...query }`), so
every object-valued entry of the copy is the very object held by the
input.  The ObjectId `forEach` only replaces top-level string values, and
those assignments hit the copy alone; but `convertDates(parsed)` rewrites
string leaves in place inside the nested objects, which are shared with
the input.  Hence the original ends up with `convertDates` applied to each
of its object-valued entries while all of its other entries (strings
included) keep their old values. -/
def origAfterVal : Value → Value
  | .vDoc inner => .vDoc (convertEntries inner)
  | v => v

def parseQueryOriginalAfter (m : List (String × Value)) : List (String × Value) :=
  m.map fun p => (p.1, origAfterVal p.2)

/-- First-match association lookup, the JS property read. -/
def lookupKey (k : String) : List (String × Value) → Option Value
  | [] => none
  | (k1, v) :: rest => if k1 = k then some v else lookupKey k rest

/-- Wrapping a document `n` levels deep inside single-entry objects, to
state depth-independence of the recursive coercion. -/
def nestDoc : Nat → List (String × Value) → List (String × Value)
  | 0, m => m
  | n + 1, m => [("level", Value.vDoc (nestDoc n m))]

/-! ## Aggregate normalization and the dispatcher's array check

`processQueryParameters` for `operation === 'aggregate'`
(src/api/index.js lines 185-193) throws when both `pipeline` and `query`
are falsy and otherwise returns `pipeline || query || []` with no further
processing; the `/query` dispatcher (lines 452-463) then throws
`'Pipeline deve ser um array para operação aggregate'` when that resolved
value is not an array, before calling `coll.aggregate`.  Both throws land
in the route's `catch`, which answers HTTP 500.  Missing body fields are
the only HTTP 400 answer of the route. -/

/-- JS truthiness of a payload value. -/
def truthy : Value → Bool
  | .vStr s => s ≠ ""
  | .vNum n => n ≠ 0
  | .vBool b => b
  | .vNull => false
  | .vDate _ => true
  | .vOid _ => true
  | .vArr _ => true
  | .vDoc _ => true

def truthyOpt : Option Value → Bool
  | some v => truthy v
  | none => false

/-- JS `a || b` on an optionally present field. -/
def jsOrV (a : Option Value) (b : Value) : Value :=
  match a with
  | some v => if truthy v then v else b
  | none => b

/-- How one `/query` aggregate request is resolved before any backend
call: HTTP 400 (validation) only for missing `connectionId`, `collection`
or `operation`; a thrown error surfaced as HTTP 500; or the backend
`coll.aggregate(stages, ...)` call itself. -/
inductive AggOutcome where
  | validationError : String → AggOutcome
  | serverError : String → AggOutcome
  | backendAggregate : List Value → AggOutcome

def aggIsClientReject : AggOutcome → Bool
  | .validationError _ => true
  | _ => false

/-- The aggregate path of `/query` after the required-fields check: the
normalizer's throw, the untouched `pipeline || query || []` resolution,
and the dispatcher's `Array.isArray` rejection guarding the backend call. -/
def aggregateRoute (pipeline query : Option Value) : AggOutcome :=
  if !truthyOpt pipeline && !truthyOpt query then
    .serverError "Pipeline ou query é obrigatório para operação aggregate"
  else
    match jsOrV pipeline (jsOrV query (.vArr [])) with
    | .vArr stages => .backendAggregate stages
    | _ => .serverError "Pipeline deve ser um array para operação aggregate"

/-! ## Error classification of the `/query` failure path

src/api/index.js lines 543-547: starting from `'unknown'`, three
independent (non-`else`) `includes` checks reassign the label in the
order timeout, connection, authentication. -/

def charsMatchAt : List Char → List Char → Bool
  | [], _ => true
  | _ :: _, [] => false
  | a :: as, b :: bs => a = b && charsMatchAt as bs

/-- Substring occurrence, the semantics of `String.prototype.includes`. -/
def occursIn (needle hay : List Char) : Bool :=
  match hay with
  | [] => charsMatchAt needle []
  | _ :: rest => charsMatchAt needle hay || occursIn needle rest

def containsSub (s sub : String) : Bool := occursIn sub.toList s.toList

/-- The sequential overwriting classification of the `/query` catch. -/
def classifyError (msg : String) : String :=
  let e0 := "unknown"
  let e1 := if containsSub msg "timeout" then "timeout" else e0
  let e2 := if containsSub msg "connection" then "connection" else e1
  if containsSub msg "authentication" then "auth" else e2

/-! ## The Connection Pool Manager (`/connect`, `/disconnect`)

The shared state is the `connectionPools` map (a JS `Map`, embedded as a
function from keys to optional sessions — a `Map` holds at most one value
per key by construction), the set of certificate files currently present
under `/tmp`, a counter of backend connection opens (`client.connect()`
invocations) and of backend closes (`client.close()` invocations), a
fresh-id source naming each `MongoClient` created, and the clock.
Outcomes of the awaited driver calls are supplied by explicit
environment records. -/

structure CertFiles where
  caFile : Option String
  certFile : Option String
deriving DecidableEq, Repr

structure Session where
  connId : Nat
  certFiles : Option CertFiles
  createdAt : Nat
  lastUsed : Nat
deriving DecidableEq, Repr

structure PState where
  registry : String → Option Session
  tempFiles : List String
  opens : Nat
  closes : Nat
  nextId : Nat
  now : Nat

def updateReg (r : String → Option Session) (k : String) (v : Option Session) :
    String → Option Session :=
  fun k1 => if k1 = k then v else r k1

def addFile (f : String) (l : List String) : List String :=
  if f ∈ l then l else f :: l

def removeFile (f : String) (l : List String) : List String :=
  l.filter (· ≠ f)

structure TlsSettings where
  enabled : Bool
  insecure : Bool
  caCert : Option String
  clientCert : Option String
deriving DecidableEq, Repr

/-- Inline PEM text is used only when truthy (`if (tlsConfig.caCert)`). -/
def certTruthy : Option String → Bool
  | some s => s ≠ ""
  | none => false

structure ConnectReq where
  connectionId : String
  mongoUrl : String
  database : String
  tlsConfig : Option TlsSettings
deriving DecidableEq, Repr

/-- Outcomes of the awaited driver calls during one `/connect` request:
the `ping` on an already-registered pool, `client.connect()`, the `ping`
inside `createMongoConnectionPool`, and the final test `ping` issued
after the pool is stored. -/
structure ConnEnv where
  probeExistingOk : Bool
  connectOk : Bool
  poolPingOk : Bool
  testPingOk : Bool
deriving DecidableEq, Repr

inductive ConnectResult where
  | badRequest
  | reused
  | created
  | failed
deriving DecidableEq, Repr

/-- Certificate materialization (src/api/index.js lines 270-290): with TLS
enabled and at least one inline cert, the PEM texts are written to
`/tmp/ca_<id>.pem` and `/tmp/cert_<id>.pem`; `certFiles` stays null
otherwise. -/
def writeCerts (req : ConnectReq) (s : PState) : PState × Option CertFiles :=
  match req.tlsConfig with
  | none => (s, none)
  | some t =>
    if t.enabled && (certTruthy t.caCert || certTruthy t.clientCert) then
      let ca := if certTruthy t.caCert then
          some ("/tmp/ca_" ++ req.connectionId ++ ".pem") else none
      let ce := if certTruthy t.clientCert then
          some ("/tmp/cert_" ++ req.connectionId ++ ".pem") else none
      let files1 := match ca with
        | some f => addFile f s.tempFiles
        | none => s.tempFiles
      let files2 := match ce with
        | some f => addFile f files1
        | none => files1
      ({ s with tempFiles := files2 }, some ⟨ca, ce⟩)
    else (s, none)

/-- The fresh-connect tail of `/connect` (src/api/index.js lines 269-349):
write certificates, run `createMongoConnectionPool` (a `client.connect()`
then a `ping`; on either failure the route's catch answers 500 with the
certificates still on disk and the registry untouched), store the new
session into `connectionPools`, then issue the test `ping` — whose
failure also lands in the catch, after the store. -/
def connectFresh (s : PState) (req : ConnectReq) (env : ConnEnv) :
    PState × ConnectResult :=
  let (s1, certFiles) := writeCerts req s
  let cid := s1.nextId
  let s2 := { s1 with opens := s1.opens + 1, nextId := s1.nextId + 1 }
  if !env.connectOk then (s2, .failed)
  else if !env.poolPingOk then (s2, .failed)
  else
    let sess : Session := ⟨cid, certFiles, s2.now, s2.now⟩
    let s3 := { s2 with registry := updateReg s2.registry req.connectionId (some sess) }
    if !env.testPingOk then (s3, .failed)
    else (s3, .created)

/-- The `/connect` route (src/api/index.js lines 233-350): reject missing
fields with HTTP 400; if the key is registered, `ping` the existing pool
and either answer "reused" untouched or delete the stale entry and fall
through to the fresh-connect sequence. -/
def connectStep (s : PState) (req : ConnectReq) (env : ConnEnv) :
    PState × ConnectResult :=
  if req.connectionId = "" || req.mongoUrl = "" || req.database = "" then
    (s, .badRequest)
  else
    match s.registry req.connectionId with
    | some _ =>
      if env.probeExistingOk then (s, .reused)
      else connectFresh { s with registry := updateReg s.registry req.connectionId none } req env
    | none => connectFresh s req env

structure DiscEnv where
  closeOk : Bool
  unlinkCaOk : Bool
  unlinkCertOk : Bool
deriving DecidableEq, Repr

inductive DiscResult where
  | notFound
  | ok
  | failed
deriving DecidableEq, Repr

/-- The certificate cleanup of `/disconnect` (src/api/index.js lines
722-729): one `try` around both `unlinkSync` calls, whose own `catch`
only logs — a throw on the CA file skips the client-cert unlink, but
never stops the route. -/
def cleanupCerts (cf : Option CertFiles) (env : DiscEnv) (files : List String) :
    List String :=
  match cf with
  | none => files
  | some c =>
    match c.caFile with
    | some ca =>
      if env.unlinkCaOk then
        let files1 := removeFile ca files
        match c.certFile with
        | some ce => if env.unlinkCertOk then removeFile ce files1 else files1
        | none => files1
      else files
    | none =>
      match c.certFile with
      | some ce => if env.unlinkCertOk then removeFile ce files else files
      | none => files

/-- The `/disconnect/:connectionId` route (src/api/index.js lines
703-749): unknown key answers 404 with nothing run; otherwise
`client.close()` is awaited first — if it throws, the catch answers 500
and neither the certificate cleanup nor `connectionPools.delete` is ever
reached — and only then certificates are cleaned (best effort) and the
entry deleted. -/
def disconnectStep (s : PState) (key : String) (env : DiscEnv) :
    PState × DiscResult :=
  match s.registry key with
  | none => (s, .notFound)
  | some sess =>
    let s1 := { s with closes := s.closes + 1 }
    if !env.closeOk then (s1, .failed)
    else
      let files := cleanupCerts sess.certFiles env s1.tempFiles
      ({ s1 with tempFiles := files,
                 registry := updateReg s1.registry key none }, .ok)

/-! ## The idle-cleanup sweep

src/api/index.js lines 752-777: every 5 minutes, for each registry entry
whose idle time strictly exceeds 30 minutes, one `try` runs
`client.close()`, then unlinks any certificate files, then deletes the
entry; its `catch` only logs, so a throw anywhere in the teardown leaves
the entry registered and the loop moves on to the next entry. -/

structure RSession where
  lastUsed : Nat
  certFiles : Option CertFiles
  closeOk : Bool
  unlinkCaOk : Bool
  unlinkCertOk : Bool
deriving DecidableEq, Repr

def idleLimit : Nat := 30 * 60 * 1000

/-- Whether the whole teardown `try` of the sweep runs to completion for
one entry, so that `connectionPools.delete` is reached: the close and
every unlink attempted for a present certificate file must succeed. -/
def reapOk (p : RSession) : Bool :=
  p.closeOk &&
  (match p.certFiles with
   | none => true
   | some c =>
     (match c.caFile with | some _ => p.unlinkCaOk | none => true) &&
     (match c.certFile with | some _ => p.unlinkCertOk | none => true))

/-- One sweep over the registry entries, in iteration order. -/
def sweep (now : Nat) : List (String × RSession) → List (String × RSession)
  | [] => []
  | (k, p) :: rest =>
    if now - p.lastUsed > idleLimit then
      if reapOk p then sweep now rest
      else (k, p) :: sweep now rest
    else (k, p) :: sweep now rest

/-! ## Lemmas about the Type Coercer -/

theorem convertEntries_map (m : List (String × Value)) :
    convertEntries m = m.map fun p => (p.1, convertEntryVal p.2) := by
  induction m with
  | nil => rfl
  | cons p rest ih =>
    obtain ⟨k, v⟩ := p
    simp [convertEntries, ih]

theorem convertString_cases (s : String) :
    convertString s = .vStr s ∨
      ∃ t, readIso s = some t ∧ tsValid t = true ∧ convertString s = .vDate t := by
  unfold convertString
  rcases h : readIso s with _ | t
  · exact Or.inl rfl
  · rcases hv : tsValid t with _ | _
    · simp [hv]
    · exact Or.inr ⟨t, rfl, hv, by simp [hv]⟩

theorem convertEntryVal_arr (l : List Value) : convertEntryVal (.vArr l) = .vArr l := rfl

theorem convertEntryVal_date (t : Timestamp) : convertEntryVal (.vDate t) = .vDate t := rfl

theorem convertEntryVal_oid (o : String) : convertEntryVal (.vOid o) = .vOid o := rfl

mutual

theorem convertEntryVal_idem : (v : Value) →
    convertEntryVal (convertEntryVal v) = convertEntryVal v
  | .vStr s => by
    show convertEntryVal (convertString s) = convertString s
    rcases convertString_cases s with h | ⟨t, _, _, h⟩
    · rw [h]; exact h
    · rw [h]; rfl
  | .vDoc m => by
    show Value.vDoc (convertEntries (convertEntries m)) = Value.vDoc (convertEntries m)
    rw [convertEntries_idem m]
  | .vNum _ => rfl
  | .vBool _ => rfl
  | .vNull => rfl
  | .vDate _ => rfl
  | .vOid _ => rfl
  | .vArr _ => rfl

theorem convertEntries_idem : (m : List (String × Value)) →
    convertEntries (convertEntries m) = convertEntries m
  | [] => rfl
  | (k, v) :: rest => by
    show (k, convertEntryVal (convertEntryVal v)) :: convertEntries (convertEntries rest) =
      (k, convertEntryVal v) :: convertEntries rest
    rw [convertEntryVal_idem v, convertEntries_idem rest]

end

/-- A string accepted by the ISO pattern has a dash at its fifth
position, so it is never 24 hex characters. -/
theorem readIso_not_hex (s : String) (t : Timestamp) (h : readIso s = some t) :
    isHex24 s = false := by
  unfold readIso at h
  split at h
  case _ y1 y2 y3 y4 h1 mo1 mo2 h2 d1 d2 t1 hh1 hh2 c1 mi1 mi2 c2 ss1 ss2 heq =>
    split at h
    case isTrue hcond =>
      simp only [Bool.and_eq_true, decide_eq_true_eq] at hcond
      have hdash : h1 = '-' := hcond.1.1.1.1.1.1.1.1.1.1.1.1.1.1.2
      have hmem : h1 ∈ s.toList := by
        have : h1 ∈ s.toList.take 19 := by rw [heq]; simp
        exact List.take_subset 19 s.toList this
      unfold isHex24
      rcases hall : s.toList.all isHexChar with _ | _
      · simp
      · rw [List.all_eq_true] at hall
        have := hall h1 hmem
        rw [hdash] at this
        simp [isHexChar] at this
    case isFalse => exact absurd h (by simp)
  case _ => exact absurd h (by simp)

/-- A string whose first character is not a digit never matches the ISO
pattern. -/
theorem readIso_head (s : String) (c : Char) (rest : List Char)
    (hs : s.toList = c :: rest) (hc : c.isDigit = false) : readIso s = none := by
  unfold readIso
  rw [hs]
  have htake : (c :: rest).take 19 = c :: rest.take 18 := rfl
  rw [htake]
  split
  case _ y1 y2 y3 y4 h1 mo1 mo2 h2 d1 d2 t1 hh1 hh2 c1 mi1 mi2 c2 ss1 ss2 heq =>
    have hy : y1 = c := by
      have := congrArg (List.head? ·) heq
      simpa using this.symm
    rw [hy, hc]
    simp
  case _ => rfl

theorem coerceFields_map (fs : List String) (m : List (String × Value)) :
    coerceFields fs m = m.map fun p => (p.1, coerceVal fs p.1 p.2) := by
  induction fs generalizing m with
  | nil => simp [coerceFields, coerceVal]
  | cons f fs ih =>
    show coerceFields fs (updateField f m) = _
    rw [ih, updateField, List.map_map]
    apply List.map_congr_left
    intro p _
    by_cases hp : p.1 = f <;> simp [hp, coerceVal]

/-- The allowlist loop touches the value under `k` exactly once when `k`
is one of the five (pairwise distinct) listed field names. -/
theorem coerceVal_apply (k : String) (v : Value) :
    coerceVal oidFields k v = if k ∈ oidFields then tryOid v else v := by
  by_cases h1 : k = "_id"
  · subst h1; rfl
  · by_cases h2 : k = "franchise"
    · subst h2; rfl
    · by_cases h3 : k = "franchiseId"
      · subst h3; rfl
      · by_cases h4 : k = "store"
        · subst h4; rfl
        · by_cases h5 : k = "storeId"
          · subst h5; rfl
          · simp [oidFields, coerceVal, h1, h2, h3, h4, h5]

/-- The entrywise effect of the whole coercer. -/
def parseVal (k : String) (v : Value) : Value :=
  convertEntryVal (coerceVal oidFields k v)

theorem parseQueryF_map (m : List (String × Value)) :
    parseQueryF m = m.map fun p => (p.1, parseVal p.1 p.2) := by
  rw [parseQueryF, coerceFields_map, convertEntries_map, List.map_map]
  rfl

theorem tryOid_str_of_not_hex (s : String) (h : isHex24 s = false) :
    tryOid (.vStr s) = .vStr s := by
  unfold tryOid
  by_cases hl : s.length = 24
  · have : isHex24 s ≠ true := by rw [h]; simp
    simp [hl, h]
  · simp [hl]

/-- After one full coercion pass the ObjectId step never fires again. -/
theorem tryOid_fix (v : Value) :
    tryOid (convertEntryVal (tryOid v)) = convertEntryVal (tryOid v) := by
  cases v with
  | vStr s =>
    by_cases hh : isHex24 s = true
    · have hl : s.length = 24 := by
        unfold isHex24 at hh
        simp only [Bool.and_eq_true, decide_eq_true_eq] at hh
        exact hh.1
      show tryOid (convertEntryVal (tryOid (.vStr s))) = _
      unfold tryOid
      simp [hl, hh, convertEntryVal]
    · rw [tryOid_str_of_not_hex s (by simpa using hh)]
      show tryOid (convertString s) = convertString s
      rcases convertString_cases s with h | ⟨t, _, _, h⟩ <;> rw [h]
      · exact tryOid_str_of_not_hex s (by simpa using hh)
      · rfl
  | vDoc m => rfl
  | vNum _ => rfl
  | vBool _ => rfl
  | vNull => rfl
  | vDate _ => rfl
  | vOid _ => rfl
  | vArr _ => rfl

theorem parseVal_idem (k : String) (v : Value) :
    parseVal k (parseVal k v) = parseVal k v := by
  unfold parseVal
  rw [coerceVal_apply, coerceVal_apply]
  by_cases hk : k ∈ oidFields
  · simp only [hk, if_pos]
    rw [tryOid_fix v, convertEntryVal_idem]
  · simp only [hk, if_neg, if_false]
    exact convertEntryVal_idem _

theorem lookupKey_map (g : String → Value → Value) (k : String) :
    (m : List (String × Value)) →
    lookupKey k (m.map fun p => (p.1, g p.1 p.2)) = (lookupKey k m).map (g k)
  | [] => rfl
  | (k1, v) :: rest => by
    by_cases h : k1 = k
    · subst h; simp [lookupKey]
    · simp only [List.map_cons, lookupKey, h, if_false]
      exact lookupKey_map g k rest

theorem convertEntries_nest (n : Nat) (m : List (String × Value)) :
    convertEntries (nestDoc n m) = nestDoc n (convertEntries m) := by
  induction n with
  | zero => rfl
  | succ n ih =>
    show (("level", convertEntryVal (.vDoc (nestDoc n m))) :: convertEntries []) = _
    simp [convertEntryVal, convertEntries, nestDoc, ih]

theorem convertString_of_none (s : String) (h : readIso s = none) :
    convertString s = .vStr s := by
  unfold convertString
  rw [h]

theorem convertString_of_valid (s : String) (t : Timestamp)
    (hr : readIso s = some t) (hv : tsValid t = true) :
    convertString s = .vDate t := by
  unfold convertString
  rw [hr]
  simp [hv]

theorem convertString_of_invalid (s : String) (t : Timestamp)
    (hr : readIso s = some t) (hv : tsValid t = false) :
    convertString s = .vStr s := by
  unfold convertString
  rw [hr]
  simp [hv]

theorem value_str_ne_oid (s o : String) : Value.vStr s ≠ Value.vOid o :=
  fun h => Value.noConfusion h

theorem value_str_ne_date (s : String) (t : Timestamp) :
    Value.vStr s ≠ Value.vDate t :=
  fun h => Value.noConfusion h

theorem tryOid_oid (o : String) : tryOid (.vOid o) = .vOid o := rfl

theorem tryOid_date (t : Timestamp) : tryOid (.vDate t) = .vDate t := rfl

theorem tryOid_doc (m : List (String × Value)) : tryOid (.vDoc m) = .vDoc m := rfl

theorem tryOid_arr (l : List Value) : tryOid (.vArr l) = .vArr l := rfl

theorem parseQueryF_single (k : String) (v : Value) :
    parseQueryF [(k, v)] = [(k, parseVal k v)] := by
  rw [parseQueryF_map]
  rfl

/-- The constructor-style strings the spec describes, as string builders. -/
def oidCtorStr (h : String) : String := "ObjectId(\x22" ++ h ++ "\x22)"

def isoCtorStr (t : String) : String := "ISODate(\x22" ++ t ++ "\x22)"

theorem oidCtorStr_not_hex (h : String) : isHex24 (oidCtorStr h) = false := by
  obtain ⟨r, hs⟩ : ∃ r, (oidCtorStr h).toList = 'O' :: r := ⟨_, rfl⟩
  unfold isHex24
  rw [hs]
  simp [isHexChar]

theorem oidCtorStr_no_iso (h : String) : readIso (oidCtorStr h) = none :=
  readIso_head _ 'O' _ rfl (by decide)

theorem isoCtorStr_not_hex (t : String) : isHex24 (isoCtorStr t) = false := by
  obtain ⟨r, hs⟩ : ∃ r, (isoCtorStr t).toList = 'I' :: r := ⟨_, rfl⟩
  unfold isHex24
  rw [hs]
  simp [isHexChar]

theorem isoCtorStr_no_iso (t : String) : readIso (isoCtorStr t) = none :=
  readIso_head _ 'I' _ rfl (by decide)

/-- A string value left alone by both coercion steps. -/
theorem parseVal_str_of_plain (k s : String) (hhex : isHex24 s = false)
    (hiso : readIso s = none) : parseVal k (.vStr s) = .vStr s := by
  unfold parseVal
  rw [coerceVal_apply]
  by_cases hk : k ∈ oidFields
  · rw [if_pos hk, tryOid_str_of_not_hex s hhex]
    show convertString s = _
    exact convertString_of_none s hiso
  · rw [if_neg hk]
    show convertString s = _
    exact convertString_of_none s hiso

/-- Sample inputs used by the concrete witness/counterexample theorems. -/
def isoSample : String := "2024-01-01T00:00:00Z"

def tsSample : Timestamp := ⟨2024, 1, 1, 0, 0, 0, 0⟩

def hexSample : String := "507f1f77bcf86cd799439011"

/-! ## C5 — recognized leaf patterns of the Type Coercer -/

/-- C5 counterexample: the coercer recognizes NO constructor-style
strings.  An `_id` leaf holding the literal text
`ObjectId("507f1f77bcf86cd799439011")` (a well-formed constructor form
with 24 inner hex characters) passes through `parseQuery` completely
unchanged — it is not turned into an identifier value, contradicting the
claim that such leaves yield the corresponding identifier. -/
theorem coercer_constructor_cex :
    parseQueryF [("_id", .vStr (oidCtorStr hexSample))] =
      [("_id", .vStr (oidCtorStr hexSample))] ∧
    parseQueryF [("_id", .vStr (oidCtorStr hexSample))] ≠
      [("_id", .vOid hexSample)] := by
  constructor
  · rfl
  · intro hEq
    rw [show parseQueryF [("_id", .vStr (oidCtorStr hexSample))] =
      [("_id", .vStr (oidCtorStr hexSample))] from rfl] at hEq
    injection hEq with h1 _
    injection h1 with _ h2
    exact value_str_ne_oid _ _ h2

/-- C5 amended: the coercer recognizes no `ObjectId("...")` or
`ISODate("...")` constructor strings — both pass through unchanged at any
key.  What it does instead: a bare string under one of the allowlisted
keys (`_id`, `franchise`, `franchiseId`, `store`, `storeId`) consisting
of exactly 24 hex characters becomes an identifier, and any string that is
neither 24 hex characters nor a match of the ISO-8601 pattern is returned
unchanged under every key. -/
theorem coercer_amended :
    (∀ m k s, k ∈ oidFields → isHex24 s = true →
      lookupKey k m = some (.vStr s) →
      lookupKey k (parseQueryF m) = some (.vOid s)) ∧
    (∀ k h, parseQueryF [(k, .vStr (oidCtorStr h))] =
      [(k, .vStr (oidCtorStr h))]) ∧
    (∀ k t, parseQueryF [(k, .vStr (isoCtorStr t))] =
      [(k, .vStr (isoCtorStr t))]) ∧
    (∀ m k s, isHex24 s = false → readIso s = none →
      lookupKey k m = some (.vStr s) →
      lookupKey k (parseQueryF m) = some (.vStr s)) := by
  refine ⟨?_, ?_, ?_, ?_⟩
  · intro m k s hk hhex hlk
    rw [parseQueryF_map, lookupKey_map, hlk]
    have hl : s.length = 24 := by
      unfold isHex24 at hhex
      simp only [Bool.and_eq_true, decide_eq_true_eq] at hhex
      exact hhex.1
    simp only [Option.map_some', parseVal, coerceVal_apply, if_pos hk]
    unfold tryOid
    simp [hl, hhex, convertEntryVal]
  · intro k h
    rw [parseQueryF_single,
      parseVal_str_of_plain k _ (oidCtorStr_not_hex h) (oidCtorStr_no_iso h)]
  · intro k t
    rw [parseQueryF_single,
      parseVal_str_of_plain k _ (isoCtorStr_not_hex t) (isoCtorStr_no_iso t)]
  · intro m k s hhex hiso hlk
    rw [parseQueryF_map, lookupKey_map, hlk]
    simp only [Option.map_some', parseVal_str_of_plain k s hhex hiso]

/-- C5 amended, witnessed at a concrete input: a bare 24-hex `_id` leaf is
coerced to an identifier. -/
theorem coercer_amended_witness :
    lookupKey "_id" (parseQueryF [("_id", .vStr hexSample)]) =
      some (.vOid hexSample) :=
  coercer_amended.1 [("_id", .vStr hexSample)] "_id" hexSample
    (by decide) (by decide) rfl

/-! ## C6 — depth behaviour of the ISO-8601 date coercion -/

/-- C6 counterexample: a valid ISO-8601 timestamp string nested inside an
ordered sequence is NOT converted — `convertDates` never traverses
arrays — contradicting the claim that conversion happens at any nesting
depth inside mappings or ordered sequences. -/
theorem coercer_array_cex :
    readIso isoSample = some tsSample ∧
    tsValid tsSample = true ∧
    parseQueryF [("when", .vArr [.vStr isoSample])] =
      [("when", .vArr [.vStr isoSample])] ∧
    parseQueryF [("when", .vArr [.vStr isoSample])] ≠
      [("when", .vArr [.vDate tsSample])] := by
  refine ⟨rfl, rfl, rfl, ?_⟩
  intro hEq
  rw [show parseQueryF [("when", .vArr [.vStr isoSample])] =
    [("when", .vArr [.vStr isoSample])] from rfl] at hEq
  injection hEq with h1 _
  injection h1 with _ h2
  injection h2 with h3
  injection h3 with h4 _
  exact value_str_ne_date _ _ h4

/-- C6 amended: a valid ISO-8601 string leaf is converted at the top
level and across any depth of nested mappings; a pattern-matching string
that denotes no valid instant is preserved at every such depth; but
ordered sequences are never traversed — an array-valued entry passes
through whole, so strings inside sequences are left unchanged. -/
theorem coercer_depth_amended :
    (∀ k s t, readIso s = some t → tsValid t = true →
      parseQueryF [(k, .vStr s)] = [(k, .vDate t)]) ∧
    (∀ n k s t, readIso s = some t → tsValid t = true →
      parseQueryF (nestDoc (n + 1) [(k, .vStr s)]) =
        nestDoc (n + 1) [(k, .vDate t)]) ∧
    (∀ n k s t, readIso s = some t → tsValid t = false →
      parseQueryF (nestDoc n [(k, .vStr s)]) = nestDoc n [(k, .vStr s)]) ∧
    (∀ k l, parseQueryF [(k, .vArr l)] = [(k, .vArr l)]) := by
  have hstr : ∀ k s, isHex24 s = false → parseVal k (.vStr s) = convertString s := by
    intro k s hh
    unfold parseVal
    rw [coerceVal_apply]
    by_cases hk : k ∈ oidFields
    · rw [if_pos hk, tryOid_str_of_not_hex s hh]; rfl
    · rw [if_neg hk]; rfl
  have hnest : ∀ n k v, parseQueryF (nestDoc (n + 1) [(k, v)]) =
      [("level", Value.vDoc (nestDoc n (convertEntries [(k, v)])))] := by
    intro n k v
    show parseQueryF [("level", Value.vDoc (nestDoc n [(k, v)]))] = _
    rw [parseQueryF_single]
    unfold parseVal
    rw [coerceVal_apply, if_neg (by decide)]
    show [("level", Value.vDoc (convertEntries (nestDoc n [(k, v)])))] = _
    rw [convertEntries_nest]
  refine ⟨?_, ?_, ?_, ?_⟩
  · intro k s t hr hv
    rw [parseQueryF_single, hstr k s (readIso_not_hex s t hr),
      convertString_of_valid s t hr hv]
  · intro n k s t hr hv
    rw [hnest]
    show _ = [("level", Value.vDoc (nestDoc n [(k, Value.vDate t)]))]
    have hce : convertEntries [(k, Value.vStr s)] = [(k, Value.vDate t)] := by
      show [(k, convertString s)] = _
      rw [convertString_of_valid s t hr hv]
    rw [hce]
  · intro n k s t hr hv
    have hconv : convertString s = .vStr s := convertString_of_invalid s t hr hv
    cases n with
    | zero =>
      show parseQueryF [(k, Value.vStr s)] = [(k, Value.vStr s)]
      rw [parseQueryF_single, hstr k s (readIso_not_hex s t hr), hconv]
    | succ n =>
      rw [hnest]
      show _ = [("level", Value.vDoc (nestDoc n [(k, Value.vStr s)]))]
      have hce : convertEntries [(k, Value.vStr s)] = [(k, Value.vStr s)] := by
        show [(k, convertString s)] = _
        rw [hconv]
      rw [hce]
  · intro k l
    rw [parseQueryF_single]
    unfold parseVal
    rw [coerceVal_apply]
    by_cases hk : k ∈ oidFields
    · rw [if_pos hk, tryOid_arr, convertEntryVal_arr]
    · rw [if_neg hk, convertEntryVal_arr]

/-- C6 amended, witnessed at a concrete input: a valid ISO string two
mapping levels down is converted. -/
theorem coercer_depth_amended_witness :
    parseQueryF (nestDoc 2 [("createdAt", .vStr isoSample)]) =
      nestDoc 2 [("createdAt", .vDate tsSample)] :=
  coercer_depth_amended.2.1 1 "createdAt" isoSample tsSample rfl rfl

/-! ## C7 — (non-)purity of the Type Coercer -/

/-- C7 counterexample: the coercer mutates its input.  `parseQuery` only
shallow-copies the top level, and `convertDates` rewrites string leaves
in place inside nested objects that the copy shares with the input; for a
filter `range: ($gte: <valid ISO string>)` the caller's original object
ends up holding a `Date` where the string used to be. -/
theorem coercer_mutation_cex :
    parseQueryOriginalAfter [("range", .vDoc [("$gte", .vStr isoSample)])] =
      [("range", .vDoc [("$gte", .vDate tsSample)])] ∧
    parseQueryOriginalAfter [("range", .vDoc [("$gte", .vStr isoSample)])] ≠
      [("range", .vDoc [("$gte", .vStr isoSample)])] := by
  constructor
  · rfl
  · intro hEq
    rw [show parseQueryOriginalAfter
        [("range", .vDoc [("$gte", .vStr isoSample)])] =
      [("range", .vDoc [("$gte", .vDate tsSample)])] from rfl] at hEq
    injection hEq with h1 _
    injection h1 with _ h2
    injection h2 with h3
    injection h3 with h4 _
    injection h4 with _ h5
    exact value_str_ne_date _ _ h5.symm

/-- C7 amended: the coercer copies only the top level.  Top-level entries
of the input are never mutated (a top-level string leaf keeps its value in
the original even when the result coerces it), and the input as a whole is
left unmodified exactly in so far as its object-valued entries contain no
convertible date strings: when `convertDates` fixes every nested object of
the input, the original is untouched. -/
theorem coercer_mutation_amended :
    (∀ m k s, lookupKey k m = some (.vStr s) →
      lookupKey k (parseQueryOriginalAfter m) = some (.vStr s)) ∧
    (∀ m, (∀ p ∈ m, ∀ inner, p.2 = Value.vDoc inner →
        convertEntries inner = inner) →
      parseQueryOriginalAfter m = m) := by
  constructor
  · intro m k s hlk
    unfold parseQueryOriginalAfter
    rw [lookupKey_map (fun _ v => origAfterVal v) k m, hlk]
    rfl
  · intro m hm
    unfold parseQueryOriginalAfter
    induction m with
    | nil => rfl
    | cons p rest ih =>
      obtain ⟨k, v⟩ := p
      have hrest := ih (fun p hp => hm p (List.mem_cons_of_mem _ hp))
      simp only [List.map_cons, hrest]
      cases v with
      | vDoc inner =>
        have := hm (k, Value.vDoc inner) (List.mem_cons_self _ _) inner rfl
        simp [origAfterVal, this]
      | vStr _ => rfl
      | vNum _ => rfl
      | vBool _ => rfl
      | vNull => rfl
      | vDate _ => rfl
      | vOid _ => rfl
      | vArr _ => rfl

/-- C7 amended, witnessed at a concrete input: an input whose only nested
object holds no convertible string is left unmodified. -/
theorem coercer_mutation_amended_witness :
    parseQueryOriginalAfter [("f", .vDoc [("n", .vNum 3)])] =
      [("f", .vDoc [("n", .vNum 3)])] :=
  coercer_mutation_amended.2 [("f", .vDoc [("n", .vNum 3)])]
    (by
      intro p hp inner hinner
      rw [List.mem_singleton] at hp
      subst hp
      injection hinner with h
      rw [← h]
      rfl)

/-! ## C8 — idempotence of the Type Coercer -/

/-- C8 (confirmed): coercion is idempotent.  Values that are already an
identifier or a timestamp pass through the coercer untouched, and running
`parseQuery` twice returns the same object as running it once: every leaf
it converts becomes a non-string (`ObjectId`/`Date`) that neither step
touches again, and every leaf it leaves is left for the same reason on the
second pass. -/
theorem coercer_idempotent :
    (∀ m, parseQueryF (parseQueryF m) = parseQueryF m) ∧
    (∀ m k o, lookupKey k m = some (.vOid o) →
      lookupKey k (parseQueryF m) = some (.vOid o)) ∧
    (∀ m k t, lookupKey k m = some (.vDate t) →
      lookupKey k (parseQueryF m) = some (.vDate t)) := by
  refine ⟨?_, ?_, ?_⟩
  · intro m
    rw [parseQueryF_map, parseQueryF_map m, List.map_map]
    apply List.map_congr_left
    intro p _
    show (p.1, parseVal p.1 (parseVal p.1 p.2)) = (p.1, parseVal p.1 p.2)
    rw [parseVal_idem]
  · intro m k o hlk
    rw [parseQueryF_map, lookupKey_map, hlk]
    simp only [Option.map_some']
    unfold parseVal
    rw [coerceVal_apply]
    by_cases hk : k ∈ oidFields
    · rw [if_pos hk, tryOid_oid, convertEntryVal_oid]
    · rw [if_neg hk, convertEntryVal_oid]
  · intro m k t hlk
    rw [parseQueryF_map, lookupKey_map, hlk]
    simp only [Option.map_some']
    unfold parseVal
    rw [coerceVal_apply]
    by_cases hk : k ∈ oidFields
    · rw [if_pos hk, tryOid_date, convertEntryVal_date]
    · rw [if_neg hk, convertEntryVal_date]

/-- C8, witnessed at a concrete input: an `_id` already holding an
identifier value is preserved. -/
theorem coercer_idempotent_witness :
    lookupKey "_id" (parseQueryF [("_id", .vOid hexSample)]) =
      some (.vOid hexSample) :=
  coercer_idempotent.2.1 [("_id", .vOid hexSample)] "_id" hexSample rfl

/-! ## C4 — serialized-text pipelines on the aggregate path -/

/-- C4 counterexample: a pipeline supplied as serialized text (here the
JSON text of an array, `"[]"`) is NOT parsed into a sequence by
`processQueryParameters` — it is resolved verbatim, fails the
dispatcher's `Array.isArray` check, and is rejected through the thrown
error that the route's catch turns into an HTTP 500 server fault, not a
client validation error. -/
theorem aggregate_serialized_text_cex :
    aggregateRoute (some (.vStr "[]")) none =
      .serverError "Pipeline deve ser um array para operação aggregate" ∧
    aggIsClientReject (aggregateRoute (some (.vStr "[]")) none) = false := by
  exact ⟨rfl, rfl⟩

/-- C4 amended: the aggregate path never parses serialized text.  The
backend is called only with the resolved `pipeline || query || []` value
itself, verbatim, whenever that value is an array; any non-array resolved
value (serialized text included) is rejected before any backend call, but
via a thrown error answered as HTTP 500 — never as a client validation
error. -/
theorem aggregate_no_parse_amended (p q : Option Value) :
    (∀ stages, aggregateRoute p q = .backendAggregate stages →
      jsOrV p (jsOrV q (.vArr [])) = .vArr stages) ∧
    ((∀ l, jsOrV p (jsOrV q (.vArr [])) ≠ .vArr l) →
      ∃ msg, aggregateRoute p q = .serverError msg ∧
        aggIsClientReject (aggregateRoute p q) = false) := by
  constructor
  · intro stages hEq
    unfold aggregateRoute at hEq
    split at hEq
    · exact absurd hEq (by simp)
    · split at hEq
      case _ stages0 heq =>
        rw [heq]
        simp only [AggOutcome.backendAggregate.injEq] at hEq
        rw [hEq]
      case _ => exact absurd hEq (by simp)
  · intro hna
    unfold aggregateRoute
    split
    · exact ⟨_, rfl, rfl⟩
    · split
      case _ stages0 heq => exact absurd heq (hna stages0)
      case _ => exact ⟨_, rfl, rfl⟩

/-- C4 amended, witnessed at a concrete input: a numeric resolved
pipeline is rejected as a thrown (server-fault) error. -/
theorem aggregate_no_parse_amended_witness :
    ∃ msg, aggregateRoute (some (.vNum 1)) none = .serverError msg ∧
      aggIsClientReject (aggregateRoute (some (.vNum 1)) none) = false :=
  (aggregate_no_parse_amended (some (.vNum 1)) none).2
    (by intro l h; simp [jsOrV, truthy] at h)

/-! ## C10 — error classification of the `/query` failure path -/

/-- C10 counterexample: the three `includes` checks are sequential and
each later match overwrites the earlier, so a message containing both
`timeout` and `connection` is classified `connection` only when it does
not also contain `authentication`; the message here contains all three
substrings and is classified `auth`, not `connection` as the claim's
universal statement requires. -/
theorem classify_overlap_cex :
    containsSub "timeout connection authentication" "timeout" = true ∧
    containsSub "timeout connection authentication" "connection" = true ∧
    classifyError "timeout connection authentication" = "auth" ∧
    classifyError "timeout connection authentication" ≠ "connection" := by
  exact ⟨rfl, rfl, rfl, by decide⟩

/-- C10 amended: classification is by three sequential non-exclusive
substring checks with later matches overwriting earlier ones; a message
containing both `timeout` and `connection` is classified `connection`
provided it does not also contain `authentication` (in which case `auth`
wins), and the classification is `unknown` exactly when none of the three
substrings occurs. -/
theorem classify_amended (msg : String) :
    (containsSub msg "timeout" = true → containsSub msg "connection" = true →
      containsSub msg "authentication" = false →
      classifyError msg = "connection") ∧
    (classifyError msg = "unknown" ↔
      (containsSub msg "timeout" = false ∧ containsSub msg "connection" = false ∧
        containsSub msg "authentication" = false)) := by
  unfold classifyError
  rcases h1 : containsSub msg "timeout" with _ | _ <;>
    rcases h2 : containsSub msg "connection" with _ | _ <;>
      rcases h3 : containsSub msg "authentication" with _ | _ <;>
        simp

/-- C10 amended, witnessed at a concrete input: a message with both
`timeout` and `connection` but no `authentication` is classified
`connection`. -/
theorem classify_amended_witness :
    classifyError "connection timeout" = "connection" :=
  (classify_amended "connection timeout").1 rfl rfl rfl

/-! ## Lemmas about the Connection Pool Manager state machine -/

theorem updateReg_same (r : String → Option Session) (k : String)
    (v : Option Session) : updateReg r k v k = v := by
  unfold updateReg
  simp

theorem writeCerts_registry (req : ConnectReq) (s : PState) :
    (writeCerts req s).1.registry = s.registry := by
  unfold writeCerts
  rcases req.tlsConfig with _ | t
  · rfl
  · dsimp only
    split <;> rfl

theorem writeCerts_opens (req : ConnectReq) (s : PState) :
    (writeCerts req s).1.opens = s.opens := by
  unfold writeCerts
  rcases req.tlsConfig with _ | t
  · rfl
  · dsimp only
    split <;> rfl

theorem writeCerts_nextId (req : ConnectReq) (s : PState) :
    (writeCerts req s).1.nextId = s.nextId := by
  unfold writeCerts
  rcases req.tlsConfig with _ | t
  · rfl
  · dsimp only
    split <;> rfl

theorem writeCerts_now (req : ConnectReq) (s : PState) :
    (writeCerts req s).1.now = s.now := by
  unfold writeCerts
  rcases req.tlsConfig with _ | t
  · rfl
  · dsimp only
    split <;> rfl

/-- Behaviour of the fresh-connect tail when the backend connect and the
in-pool probe both succeed: the new session is stored under the key (with
the test ping still to come), exactly one backend connection was opened,
no certificate file is removed, and the response is success exactly when
the final test ping succeeds. -/
theorem connectFresh_ok (s : PState) (req : ConnectReq) (env : ConnEnv)
    (hc : env.connectOk = true) (hpp : env.poolPingOk = true) :
    (connectFresh s req env).1.registry req.connectionId =
      some ⟨s.nextId, (writeCerts req s).2, s.now, s.now⟩ ∧
    (connectFresh s req env).1.opens = s.opens + 1 ∧
    (connectFresh s req env).1.tempFiles = (writeCerts req s).1.tempFiles ∧
    (connectFresh s req env).2 =
      (if env.testPingOk then ConnectResult.created else .failed) := by
  unfold connectFresh
  simp only [hc, hpp, Bool.not_true, Bool.false_eq_true, if_false]
  rcases ht : env.testPingOk with _ | _ <;>
    simp [updateReg_same, writeCerts_registry, writeCerts_opens,
      writeCerts_nextId, writeCerts_now]

/-- Behaviour of the fresh-connect tail when the backend connect or the
in-pool probe throws: the registry is untouched, the response is the
failure envelope, and the certificate files just written are all still
present (nothing in the route deletes them). -/
theorem connectFresh_fail (s : PState) (req : ConnectReq) (env : ConnEnv)
    (h : env.connectOk = false ∨ env.poolPingOk = false) :
    (connectFresh s req env).1.registry = s.registry ∧
    (connectFresh s req env).2 = .failed ∧
    (connectFresh s req env).1.tempFiles = (writeCerts req s).1.tempFiles ∧
    (connectFresh s req env).1.opens = s.opens + 1 := by
  unfold connectFresh
  rcases hc : env.connectOk with _ | _
  · simp [writeCerts_registry, writeCerts_opens]
  · rcases hpp : env.poolPingOk with _ | _
    · simp [hc, hpp, writeCerts_registry, writeCerts_opens]
    · rcases h with h | h
      · rw [hc] at h; cases h
      · rw [hpp] at h; cases h

/-! ## C1 — reuse-or-replace on `/connect` for an existing key -/

/-- C1 (confirmed): for a registered key, a successful liveness probe
makes `/connect` answer "reused" with the state — registry, temp files,
open-connection count — completely unchanged, so no new backend
connection is created and the key still maps to the original session;
a failed probe deletes the stale entry and (when the fresh connect
sequence succeeds) stores exactly one new session under the key, opened
through exactly one new backend connection.  The registry is a map from
key to at most one session by construction, so no key ever holds two
sessions. -/
theorem connect_reuse_or_replace (s : PState) (req : ConnectReq)
    (env : ConnEnv) (sess : Session)
    (hid : req.connectionId ≠ "") (hurl : req.mongoUrl ≠ "")
    (hdb : req.database ≠ "")
    (hreg : s.registry req.connectionId = some sess)
    (hfresh : sess.connId < s.nextId) :
    (env.probeExistingOk = true → connectStep s req env = (s, .reused)) ∧
    (env.probeExistingOk = false → env.connectOk = true →
      env.poolPingOk = true →
      ∃ newSess : Session,
        (connectStep s req env).1.registry req.connectionId = some newSess ∧
        newSess.connId = s.nextId ∧
        newSess ≠ sess ∧
        (connectStep s req env).1.opens = s.opens + 1) := by
  have hcond : ¬((req.connectionId = "" || req.mongoUrl = "" ||
      req.database = "") = true) := by
    simp [hid, hurl, hdb]
  constructor
  · intro hp
    unfold connectStep
    rw [if_neg hcond, hreg]
    simp [hp]
  · intro hp hc hpp
    unfold connectStep
    rw [if_neg hcond, hreg]
    simp only [hp, Bool.false_eq_true, if_false]
    set sA : PState :=
      { s with registry := updateReg s.registry req.connectionId none } with hsA
    obtain ⟨hr, ho, _, _⟩ := connectFresh_ok sA req env hc hpp
    refine ⟨⟨sA.nextId, (writeCerts req sA).2, sA.now, sA.now⟩, hr, rfl, ?_, ho⟩
    intro hEq
    have : sA.nextId = sess.connId := congrArg Session.connId hEq
    have hnx : sA.nextId = s.nextId := rfl
    omega

/-- C1, witnessed at a concrete state: a registered, probe-responsive key
is reused with the state unchanged. -/
theorem connect_reuse_witness :
    connectStep
      ⟨fun k => if k = "c1" then some ⟨0, none, 500, 900⟩ else none,
        [], 1, 0, 1, 1000⟩
      ⟨"c1", "mongodb://h", "db", none⟩ ⟨true, true, true, true⟩ =
    (⟨fun k => if k = "c1" then some ⟨0, none, 500, 900⟩ else none,
        [], 1, 0, 1, 1000⟩, .reused) :=
  (connect_reuse_or_replace _ _ _ ⟨0, none, 500, 900⟩
    (by decide) (by decide) (by decide) rfl (by decide)).1 rfl

/-! ## C2 — failure handling on `/connect` -/

/-- Concrete base state for the `/connect` counterexample: empty registry
and no temp files. -/
def s0 : PState := ⟨fun _ => none, [], 0, 0, 0, 1000⟩

/-- Concrete connect request supplying an inline CA certificate. -/
def reqTls : ConnectReq :=
  ⟨"c1", "mongodb://h", "db", some ⟨true, false, some "PEM", none⟩⟩

/-- C2 counterexample, two failure modes of the same request.  With the
CA certificate materialized to `/tmp/ca_c1.pem`: (1) when
`client.connect()` throws, the route answers the failure envelope but the
certificate file is still present — no failure path of `/connect` deletes
credential material; (2) when connect and the in-pool probe succeed but
the post-store test ping throws, the route answers the failure envelope
while the freshly stored session is left visible in the registry — the
entry is published before the final probe, not after. -/
theorem connect_failure_leak_cex :
    (connectStep s0 reqTls ⟨true, false, true, true⟩).2 = .failed ∧
    "/tmp/ca_c1.pem" ∈ (connectStep s0 reqTls ⟨true, false, true, true⟩).1.tempFiles ∧
    (connectStep s0 reqTls ⟨true, true, true, false⟩).2 = .failed ∧
    (connectStep s0 reqTls ⟨true, true, true, false⟩).1.registry "c1" =
      some ⟨0, some ⟨some "/tmp/ca_c1.pem", none⟩, 1000, 1000⟩ := by
  refine ⟨rfl, ?_, rfl, rfl⟩
  show "/tmp/ca_c1.pem" ∈ ["/tmp/ca_c1.pem"]
  simp

/-- C2 amended: for a key not yet registered, a failure of the socket
connect or of the liveness probe inside `createMongoConnectionPool` leaves
no session in the registry and returns the failure envelope; but the
credential files written for the request are never deleted on any outcome
(the temp-file set is exactly what the certificate-materialization step
left), and when only the post-store test ping fails the failure envelope
is returned with the new session still published in the registry. -/
theorem connect_failure_amended (s : PState) (req : ConnectReq)
    (env : ConnEnv)
    (hid : req.connectionId ≠ "") (hurl : req.mongoUrl ≠ "")
    (hdb : req.database ≠ "")
    (hab : s.registry req.connectionId = none) :
    ((env.connectOk = false ∨ env.poolPingOk = false) →
      (connectStep s req env).1.registry req.connectionId = none ∧
      (connectStep s req env).2 = .failed) ∧
    ((connectStep s req env).1.tempFiles = (writeCerts req s).1.tempFiles) ∧
    (env.connectOk = true → env.poolPingOk = true → env.testPingOk = false →
      (connectStep s req env).2 = .failed ∧
      (connectStep s req env).1.registry req.connectionId =
        some ⟨s.nextId, (writeCerts req s).2, s.now, s.now⟩) := by
  have hcond : ¬((req.connectionId = "" || req.mongoUrl = "" ||
      req.database = "") = true) := by
    simp [hid, hurl, hdb]
  have hstep : connectStep s req env = connectFresh s req env := by
    unfold connectStep
    rw [if_neg hcond, hab]
  refine ⟨?_, ?_, ?_⟩
  · intro h
    obtain ⟨hr, hres, _, _⟩ := connectFresh_fail s req env h
    rw [hstep, hr, hres]
    exact ⟨hab, rfl⟩
  · rw [hstep]
    by_cases h : env.connectOk = true ∧ env.poolPingOk = true
    · exact (connectFresh_ok s req env h.1 h.2).2.2.1
    · have h2 : env.connectOk = false ∨ env.poolPingOk = false := by
        rcases hx : env.connectOk with _ | _
        · exact Or.inl rfl
        · rcases hy : env.poolPingOk with _ | _
          · exact Or.inr rfl
          · exact absurd ⟨hx, hy⟩ h
      exact (connectFresh_fail s req env h2).2.2.1
  · intro hc hpp ht
    obtain ⟨hr, _, _, hres⟩ := connectFresh_ok s req env hc hpp
    rw [hstep, hres, ht, hr]
    simp

/-- C2 amended, witnessed at a concrete state: a connect whose socket
open throws leaves the registry without the key and answers failure. -/
theorem connect_failure_amended_witness :
    (connectStep s0 reqTls ⟨true, false, false, true⟩).1.registry "c1" = none ∧
    (connectStep s0 reqTls ⟨true, false, false, true⟩).2 = .failed :=
  (connect_failure_amended s0 reqTls ⟨true, false, false, true⟩
    (by decide) (by decide) (by decide) rfl).1 (Or.inl rfl)

/-! ## C3 — `/disconnect` behaviour -/

/-- Concrete state for the `/disconnect` counterexample: one registered
session under `"c1"`. -/
def sessC : Session := ⟨0, none, 500, 900⟩

def s3c : PState :=
  ⟨fun k => if k = "c1" then some sessC else none, [], 1, 0, 1, 1000⟩

/-- C3 counterexample: when `client.close()` throws, the route's catch
answers the failure envelope before `connectionPools.delete` is ever
reached, so the key is still registered afterwards — contradicting the
claim that a known key is always absent after `disconnect`, even when the
backend close throws. -/
theorem disconnect_close_failure_cex :
    (disconnectStep s3c "c1" ⟨false, true, true⟩).2 = .failed ∧
    (disconnectStep s3c "c1" ⟨false, true, true⟩).1.registry "c1" =
      some sessC := by
  exact ⟨rfl, rfl⟩

/-- C3 amended: `disconnect` of an unknown key answers not-found with the
state untouched (no backend close, no file deletion); for a known key the
key is absent afterwards whenever the backend close succeeds — regardless
of certificate-deletion failures — but when the close throws, the route
answers a failure envelope and the key remains registered. -/
theorem disconnect_amended (s : PState) (key : String) (env : DiscEnv) :
    (s.registry key = none → disconnectStep s key env = (s, .notFound)) ∧
    (∀ sess, s.registry key = some sess → env.closeOk = true →
      (disconnectStep s key env).1.registry key = none ∧
      (disconnectStep s key env).2 = .ok) ∧
    (∀ sess, s.registry key = some sess → env.closeOk = false →
      disconnectStep s key env = ({ s with closes := s.closes + 1 }, .failed) ∧
      (disconnectStep s key env).1.registry key = some sess) := by
  refine ⟨?_, ?_, ?_⟩
  · intro h
    unfold disconnectStep
    rw [h]
  · intro sess h hok
    unfold disconnectStep
    rw [h]
    simp [hok, updateReg_same]
  · intro sess h hko
    unfold disconnectStep
    rw [h, hko]
    exact ⟨rfl, h⟩

/-- C3 amended, witnessed at a concrete state: disconnecting an absent
key answers not-found with nothing torn down. -/
theorem disconnect_amended_witness :
    disconnectStep s3c "nope" ⟨true, true, true⟩ = (s3c, .notFound) :=
  (disconnect_amended s3c "nope" ⟨true, true, true⟩).1 rfl

/-! ## C9 — the idle-cleanup sweep -/

theorem sweep_filter (now : Nat) (l : List (String × RSession)) :
    sweep now l = l.filter
      fun e => !(decide (now - e.2.lastUsed > idleLimit) && reapOk e.2) := by
  induction l with
  | nil => rfl
  | cons e rest ih =>
    obtain ⟨k, p⟩ := e
    by_cases hidle : now - p.lastUsed > idleLimit <;>
      rcases hok : reapOk p with _ | _ <;>
        simp [sweep, List.filter_cons, hidle, hok, ih]

/-- Concrete reaper inputs: a stale session whose close throws, and a
stale session whose teardown succeeds. -/
def stalePool : RSession := ⟨0, none, false, true, true⟩

def reapablePool : RSession := ⟨0, none, true, true, true⟩

/-- C9 counterexample: a session idle past the threshold whose
`client.close()` throws is NOT evicted — the catch skips
`connectionPools.delete`, so the entry survives the sweep — contradicting
the claim that every over-threshold session is evicted by the sweep.  The
same sweep still evicts the next over-threshold entry, so only the
eviction conjunct fails. -/
theorem reaper_close_failure_cex :
    (1800001 : Nat) - stalePool.lastUsed > idleLimit ∧
    sweep 1800001 [("a", stalePool)] = [("a", stalePool)] ∧
    sweep 1800001 [("a", stalePool), ("b", reapablePool)] =
      [("a", stalePool)] := by
  refine ⟨by decide, rfl, rfl⟩

/-- C9 amended: the sweep treats each entry independently (it equals a
per-entry filter, so one entry's failure never blocks the rest); a
session within the idle threshold is never evicted; an over-threshold
session is evicted when its close and certificate unlinks succeed; and an
over-threshold session whose teardown throws survives the sweep. -/
theorem reaper_amended :
    (∀ now l, sweep now l = l.filter
      fun e => !(decide (now - e.2.lastUsed > idleLimit) && reapOk e.2)) ∧
    (∀ now l (k : String) (p : RSession), (k, p) ∈ l →
      now - p.lastUsed ≤ idleLimit → (k, p) ∈ sweep now l) ∧
    (∀ now l (k : String) (p : RSession), (k, p) ∈ l →
      now - p.lastUsed > idleLimit → reapOk p = true → (k, p) ∉ sweep now l) ∧
    (∀ now l (k : String) (p : RSession), (k, p) ∈ l →
      now - p.lastUsed > idleLimit → reapOk p = false → (k, p) ∈ sweep now l) := by
  refine ⟨sweep_filter, ?_, ?_, ?_⟩
  · intro now l k p hmem hle
    rw [sweep_filter]
    refine List.mem_filter.mpr ⟨hmem, ?_⟩
    have hn : ¬(now - p.lastUsed > idleLimit) := by omega
    simp [hn]
  · intro now l k p hmem hidle hok hcontra
    rw [sweep_filter] at hcontra
    have := (List.mem_filter.mp hcontra).2
    simp [hidle, hok] at this
  · intro now l k p hmem hidle hok
    rw [sweep_filter]
    refine List.mem_filter.mpr ⟨hmem, ?_⟩
    simp [hidle, hok]

/-- C9 amended, witnessed at a concrete input: a just-touched session
survives the sweep. -/
theorem reaper_amended_witness :
    ("f", RSession.mk 1800001 none true true true) ∈
      sweep 1800001 [("f", RSession.mk 1800001 none true true true)] :=
  reaper_amended.2.1 1800001 _ "f" _ (List.mem_singleton.mpr rfl) (by decide)

end MongoProxy
